import Mathlib

/-!
Verification model of the list-parameter resolution module (`useListParams`):
the query-string extractor `parseQueryFromLocation`, the predicate
`hasCustomParams`, the three-source merger `getQuery` with its numeric
coercion `getNumberOrDefault`, and the stateful filter modifiers
(`setFilters` with its debounce, `hideFilter`, `showFilter`).

JavaScript runtime values are shallowly embedded as `JSValue`; numbers are
modelled as integers plus NaN (the module only ever produces integer pages
and page sizes via `parseInt`). The query-string and JSON (de)serializers
are external libraries; they are modelled directly (a total query-string
parser and a fuel-based JSON parser returning `Option`, mirroring the
`try/catch` around `JSON.parse`).
-/

namespace ListParams

/-- A JavaScript number: an integer or NaN (the two shapes `parseInt` and the
integer literals of the module can produce). -/
inductive JSNum where
  | int (i : Int)
  | nan
deriving DecidableEq, Repr

mutual

/-- A JavaScript runtime value, as needed by the module: `undefined`, `null`,
booleans, numbers, strings, objects (field lists with unique keys in all
constructed values) and arrays. -/
inductive JSValue where
  | undef
  | null
  | bool (b : Bool)
  | num (n : JSNum)
  | str (s : String)
  | obj (fields : JSFields)
  | arr (elems : JSList)
deriving DecidableEq, Repr

/-- The field list of a JavaScript object, in insertion order. -/
inductive JSFields where
  | nil
  | cons (k : String) (v : JSValue) (rest : JSFields)
deriving DecidableEq, Repr

/-- The element list of a JavaScript array. -/
inductive JSList where
  | nil
  | cons (v : JSValue) (rest : JSList)
deriving DecidableEq, Repr

end

namespace JSFields

/-- Build a field list from a Lean association list. -/
def ofList : List (String × JSValue) → JSFields
  | [] => .nil
  | (k, v) :: rest => .cons k v (ofList rest)

/-- Number of fields. -/
def length : JSFields → Nat
  | .nil => 0
  | .cons _ _ rest => 1 + rest.length

/-- First value bound to a key, if any. -/
def lookup (k : String) : JSFields → Option JSValue
  | .nil => none
  | .cons l v rest => if l = k then some v else lookup k rest

/-- Whether a key is bound. -/
def hasKey (k : String) : JSFields → Bool
  | .nil => false
  | .cons l _ rest => l = k || hasKey k rest

end JSFields

namespace JSList

/-- Number of elements. -/
def length : JSList → Nat
  | .nil => 0
  | .cons _ rest => 1 + rest.length

/-- Concatenation of element lists. -/
def append : JSList → JSList → JSList
  | .nil, ys => ys
  | .cons x xs, ys => .cons x (append xs ys)

end JSList

namespace JSValue

/-- JavaScript truthiness: `undefined`, `null`, `false`, `0`, `NaN` and the
empty string are falsy; every object and array is truthy. -/
def truthy : JSValue → Bool
  | .undef => false
  | .null => false
  | .bool b => b
  | .num (.int i) => decide (i ≠ 0)
  | .num .nan => false
  | .str s => decide (s ≠ "")
  | .obj _ => true
  | .arr _ => true

/-- Length of `Object.keys(v)` for the values the module feeds to it
(objects, arrays, strings; primitives have no own enumerable keys). -/
def keyLen : JSValue → Nat
  | .obj fs => fs.length
  | .arr es => es.length
  | .str s => s.length
  | _ => 0

end JSValue

/-- Digits-prefix accumulator for `parseIntJS`. -/
def natFromDigits (cs : List Char) : Nat :=
  cs.foldl (fun acc c => acc * 10 + (c.toNat - '0'.toNat)) 0

/-- The leading digit run of a character list, interpreted as a
`JSNum` with the given sign; no digits gives NaN. -/
def digitsToNum (cs : List Char) (neg : Bool) : JSNum :=
  let ds := cs.takeWhile Char.isDigit
  if ds.isEmpty then .nan
  else .int ((if neg then (-1 : Int) else 1) * (natFromDigits ds : Int))

/-- JavaScript `parseInt(s, 10)`: skip leading whitespace, read an optional
sign and then the leading decimal-digit run; no digits gives NaN. -/
def parseIntJS (s : String) : JSNum :=
  match s.toList.dropWhile Char.isWhitespace with
  | '-' :: rest => digitsToNum rest true
  | '+' :: rest => digitsToNum rest false
  | rest => digitsToNum rest false

/-- The conditional inside `getNumberOrDefault`:
`typeof possibleNumber === 'string' ? parseInt(possibleNumber, 10) : possibleNumber`. -/
def coerceNum : JSValue → JSValue
  | .str s => .num (parseIntJS s)
  | v => v

/-- `getNumberOrDefault(possibleNumber, defaultValue)` from the source:
coerce strings with `parseInt`, then `|| defaultValue` (any falsy result,
including 0 and NaN, falls back to the default). -/
def getNumberOrDefault (v : JSValue) (d : Int) : JSValue :=
  if (coerceNum v).truthy then coerceNum v else .num (.int d)

/-- The five whitelisted query keys, `validQueryParams` in the source. -/
def validQueryParams : List String := ["page", "perPage", "sort", "order", "filter"]

/-- A parameter object restricted to the five whitelisted keys: the shape of
`parseQueryFromLocation`'s output, of the persisted `ListParams`, and of
`getQuery`'s result. `none` models an absent key. -/
structure QueryObj where
  page : Option JSValue := none
  perPage : Option JSValue := none
  sort : Option JSValue := none
  order : Option JSValue := none
  filter : Option JSValue := none
deriving DecidableEq, Repr

namespace QueryObj

/-- The empty parameter object (no keys). -/
def empty : QueryObj := ⟨none, none, none, none, none⟩

/-- `Object.keys(q).length` for a whitelisted parameter object. -/
def keyCount (q : QueryObj) : Nat :=
  (if q.page.isSome then 1 else 0) + (if q.perPage.isSome then 1 else 0) +
    (if q.sort.isSome then 1 else 0) + (if q.order.isSome then 1 else 0) +
    (if q.filter.isSome then 1 else 0)

end QueryObj

/-- Truthiness of a possibly-absent value (an absent key reads as
`undefined`). -/
def truthyOpt (v : Option JSValue) : Bool :=
  (v.getD .undef).truthy

/-- JavaScript loose `x != null`: true exactly for values that are neither
`null` nor `undefined` (an absent key reads as `undefined`). -/
def looseNeqNull : Option JSValue → Bool
  | none => false
  | some .undef => false
  | some .null => false
  | some _ => true

/-! ### Query-string parsing (the external `query-string` library's `parse`) -/

/-- Hexadecimal digit value, for percent-decoding. -/
def hexVal (c : Char) : Option Nat :=
  if '0' ≤ c ∧ c ≤ '9' then some (c.toNat - '0'.toNat)
  else if 'a' ≤ c ∧ c ≤ 'f' then some (c.toNat - 'a'.toNat + 10)
  else if 'A' ≤ c ∧ c ≤ 'F' then some (c.toNat - 'A'.toNat + 10)
  else none

/-- Percent-decoding of a URI component; malformed escapes are kept verbatim
(the library's fail-soft decoder never throws). -/
def decodeChars : List Char → List Char
  | '%' :: a :: b :: rest =>
    match hexVal a, hexVal b with
    | some x, some y => Char.ofNat (16 * x + y) :: decodeChars rest
    | _, _ => '%' :: decodeChars (a :: b :: rest)
  | c :: rest => c :: decodeChars rest
  | [] => []

/-- Percent-decoding of a URI component, on strings. -/
def decodeStr (cs : List Char) : String :=
  String.mk (decodeChars cs)

/-- One `key=value` fragment of a query string: a key without `=` maps to
`null`, `key=` maps to the empty string. Empty fragments are skipped. -/
def parsePart (part : List Char) : Option (String × JSValue) :=
  if part.isEmpty then none
  else
    let k := part.takeWhile (· ≠ '=')
    match part.dropWhile (· ≠ '=') with
    | [] => some (decodeStr k, .null)
    | _ :: v => some (decodeStr k, .str (decodeStr v))

/-- Merging a repeated key into its previous value: repeats collect into an
array, in order of appearance. -/
def addToKey : JSValue → JSValue → JSValue
  | .arr xs, v => .arr (xs.append (.cons v .nil))
  | old, v => .arr (.cons old (.cons v .nil))

/-- Insert one parsed `key := value` pair into the accumulated parameter
list, merging repeated keys. -/
def insertParam (acc : List (String × JSValue)) (k : String) (v : JSValue) :
    List (String × JSValue) :=
  if acc.any (fun kv => kv.1 = k) then
    acc.map (fun kv => if kv.1 = k then (kv.1, addToKey kv.2 v) else kv)
  else acc ++ [(k, v)]

/-- Strip the single leading `?`, `#` or `&` the library removes. -/
def stripLead : List Char → List Char
  | c :: rest => if c = '?' ∨ c = '#' ∨ c = '&' then rest else c :: rest
  | [] => []

/-- Split a character list on `&` separators. -/
def splitAmp : List Char → List (List Char)
  | [] => [[]]
  | '&' :: rest => [] :: splitAmp rest
  | c :: rest =>
    match splitAmp rest with
    | [] => [[c]]
    | p :: ps => (c :: p) :: ps

/-- The external `query-string` library's `parse`: strip the leading marker,
split on `&`, decode each `key=value` pair, merge repeated keys into
arrays. Total: no input throws. -/
def queryStringParse (search : String) : List (String × JSValue) :=
  (splitAmp (stripLead search.toList)).foldl
    (fun acc part =>
      match parsePart part with
      | some (k, v) => insertParam acc k v
      | none => acc)
    []

/-- Association-list lookup for parsed query parameters. -/
def lookupParam (ps : List (String × JSValue)) (k : String) : Option JSValue :=
  (ps.find? (fun kv => kv.1 = k)).map (fun kv => kv.2)

/-- The `pickBy` over `validQueryParams` in `parseQueryFromLocation`: keep
only the five recognized keys, as a `QueryObj`. -/
def pickValid (ps : List (String × JSValue)) : QueryObj :=
  ⟨lookupParam ps "page", lookupParam ps "perPage", lookupParam ps "sort",
    lookupParam ps "order", lookupParam ps "filter"⟩

/-! ### JSON parsing (the external `JSON.parse`, modelled as an `Option`)

The module wraps `JSON.parse` in `try/catch`; here the parser returns
`none` where `JSON.parse` throws. JSON numbers are modelled as integers
(the module's numeric fields only ever carry integers); a fractional part
or exponent is rejected. The parser is fuel-based; `s.length + 1` fuel is
always sufficient since every recursive call consumes at least one
character first. -/

/-- Whitespace skipping inside JSON text. -/
def skipWs : List Char → List Char :=
  List.dropWhile (fun c => c = ' ' ∨ c = '\t' ∨ c = '\n' ∨ c = '\r')

/-- One escape character after a backslash in a JSON string; `\u` escapes
are handled separately. -/
def jsonEscape (c : Char) : Option Char :=
  if c = '"' then some '"'
  else if c = '\\' then some '\\'
  else if c = '/' then some '/'
  else if c = 'b' then some (Char.ofNat 8)
  else if c = 'f' then some (Char.ofNat 12)
  else if c = 'n' then some '\n'
  else if c = 'r' then some '\r'
  else if c = 't' then some '\t'
  else none

/-- The body of a JSON string after the opening quote: characters up to the
closing quote, with escapes; unescaped control characters are rejected. -/
def jsonString : List Char → Option (String × List Char)
  | [] => none
  | '"' :: rest => some ("", rest)
  | '\\' :: 'u' :: a :: b :: c :: d :: rest =>
    match hexVal a, hexVal b, hexVal c, hexVal d with
    | some w, some x, some y, some z =>
      (jsonString rest).map fun (s, r) =>
        (String.mk (Char.ofNat (((w * 16 + x) * 16 + y) * 16 + z) :: s.toList), r)
    | _, _, _, _ => none
  | '\\' :: e :: rest =>
    match jsonEscape e with
    | some c => (jsonString rest).map fun (s, r) => (String.mk (c :: s.toList), r)
    | none => none
  | c :: rest =>
    if c.toNat < 32 then none
    else (jsonString rest).map fun (s, r) => (String.mk (c :: s.toList), r)

/-- A JSON integer literal at the head of the input: optional minus, then
either a single `0` or a nonzero digit run; a following `.`, `e` or `E`
(a fractional part or exponent, unmodelled) rejects. -/
def jsonNumber (cs : List Char) : Option (Int × List Char) :=
  let core : List Char → Option (Int × List Char) := fun ds =>
    match ds with
    | [] => none
    | c :: _ =>
      if ¬ c.isDigit then none
      else if c = '0' ∧ ((ds.drop 1).headD ' ').isDigit then none
      else
        let digits := ds.takeWhile Char.isDigit
        let rest := ds.dropWhile Char.isDigit
        match rest with
        | e :: _ => if e = '.' ∨ e = 'e' ∨ e = 'E' then none
                    else some ((natFromDigits digits : Int), rest)
        | [] => some ((natFromDigits digits : Int), rest)
  match cs with
  | '-' :: ds => (core ds).map fun (n, r) => (-n, r)
  | ds => core ds

/-- Insert a parsed member into an object's fields, replacing an earlier
binding of the same key as `JSON.parse` does. -/
def insertField (fs : JSFields) (k : String) (v : JSValue) : JSFields :=
  match fs with
  | .nil => .cons k v .nil
  | .cons l w rest => if l = k then .cons l v rest else .cons l w (insertField rest k v)

mutual

/-- A JSON value at the head of the input (whitespace already skipped). -/
def jsonVal : Nat → List Char → Option (JSValue × List Char)
  | 0, _ => none
  | _ + 1, [] => none
  | fuel + 1, c :: rest =>
    if c = '"' then (jsonString rest).map fun (s, r) => (JSValue.str s, r)
    else if c = '{' then
      match skipWs rest with
      | '}' :: r => some (.obj .nil, r)
      | r => (jsonMembers fuel r .nil).map fun (fs, r) => (JSValue.obj fs, r)
    else if c = '[' then
      match skipWs rest with
      | ']' :: r => some (.arr .nil, r)
      | r => (jsonElems fuel r .nil).map fun (es, r) => (JSValue.arr es, r)
    else if c = 't' then
      match rest with
      | 'r' :: 'u' :: 'e' :: r => some (.bool true, r)
      | _ => none
    else if c = 'f' then
      match rest with
      | 'a' :: 'l' :: 's' :: 'e' :: r => some (.bool false, r)
      | _ => none
    else if c = 'n' then
      match rest with
      | 'u' :: 'l' :: 'l' :: r => some (.null, r)
      | _ => none
    else
      (jsonNumber (c :: rest)).map fun (n, r) => (JSValue.num (.int n), r)

/-- The members of a JSON object after `{` (first member pending). -/
def jsonMembers : Nat → List Char → JSFields → Option (JSFields × List Char)
  | 0, _, _ => none
  | fuel + 1, cs, acc =>
    match skipWs cs with
    | '"' :: rest =>
      match jsonString rest with
      | some (k, r) =>
        match skipWs r with
        | ':' :: r2 =>
          match jsonVal fuel (skipWs r2) with
          | some (v, r3) =>
            match skipWs r3 with
            | ',' :: r4 => jsonMembers fuel r4 (insertField acc k v)
            | '}' :: r4 => some (insertField acc k v, r4)
            | _ => none
          | none => none
        | _ => none
      | none => none
    | _ => none

/-- The elements of a JSON array after `[` (first element pending). -/
def jsonElems : Nat → List Char → JSList → Option (JSList × List Char)
  | 0, _, _ => none
  | fuel + 1, cs, acc =>
    match jsonVal fuel (skipWs cs) with
    | some (v, r) =>
      match skipWs r with
      | ',' :: r2 => jsonElems fuel r2 (JSList.append acc (.cons v .nil))
      | ']' :: r2 => some (JSList.append acc (.cons v .nil), r2)
      | _ => none
    | none => none

end

/-- The external `JSON.parse`, as an option: `none` where it would throw. -/
def jsonParse (s : String) : Option JSValue :=
  match jsonVal (s.length + 1) (skipWs s.toList) with
  | some (v, rest) => if skipWs rest = [] then some v else none
  | none => none

/-! ### `parseQueryFromLocation`, `hasCustomParams`, `getQuery` -/

/-- `parseQueryFromLocation({search})` from the source: parse the query
string, keep only `validQueryParams` keys, and if `filter` is a truthy
string (`query.filter && typeof query.filter === 'string'`), replace it
with its parsed JSON, dropping the key entirely when parsing fails. -/
def parseQueryFromLocation (search : String) : QueryObj :=
  let q := pickValid (queryStringParse search)
  match q.filter with
  | some (.str s) =>
    if s = "" then q
    else
      match jsonParse s with
      | some j => { q with filter := some j }
      | none => { q with filter := none }
  | _ => q

/-- `hasCustomParams(params)` from the source: the truthiness of
`params && params.filter && (Object.keys(params.filter).length > 0 ||
params.order != null || params.page !== 1 || params.perPage != null ||
params.sort != null)`. `none` models an undefined `params`. -/
def hasCustomParams (params : Option QueryObj) : Bool :=
  match params with
  | none => false
  | some p =>
    match p.filter with
    | none => false
    | some f =>
      f.truthy &&
        (decide (0 < f.keyLen) || looseNeqNull p.order ||
          decide (p.page ≠ some (.num (.int 1))) || looseNeqNull p.perPage ||
          looseNeqNull p.sort)

/-- The caller-supplied default `Sort` (`{field, order}`). -/
structure SortObj where
  field : JSValue
  order : JSValue
deriving DecidableEq, Repr

/-- The arguments of `getQuery` (`location` carries only `search`). -/
structure GetQueryArgs where
  search : String
  params : Option QueryObj
  filterDefaultValues : JSValue
  sort : SortObj
  perPage : JSValue
deriving DecidableEq, Repr

/-- `filterDefaultValues || {}` from the defaults branch of `getQuery`. -/
def filterOrEmpty (fdv : JSValue) : JSValue :=
  if fdv.truthy then fdv else .obj .nil

/-- The three-way selection at the head of `getQuery`: the URL query when it
has at least one recognized key, else a copy of the stored params when they
are custom, else `{filter: filterDefaultValues || {}}`. -/
def selectQuery (qfl : QueryObj) (params : Option QueryObj) (fdv : JSValue) : QueryObj :=
  if 0 < qfl.keyCount then qfl
  else
    match params with
    | some p =>
      if hasCustomParams (some p) then p
      else ⟨none, none, none, none, some (filterOrEmpty fdv)⟩
    | none => ⟨none, none, none, none, some (filterOrEmpty fdv)⟩

/-- `if (!query.sort) { query.sort = sort.field; query.order = sort.order }`
from `getQuery`. -/
def fillSort (q : QueryObj) (s : SortObj) : QueryObj :=
  if truthyOpt q.sort then q else { q with sort := some s.field, order := some s.order }

/-- `if (!query.perPage) { query.perPage = perPage }` from `getQuery`. -/
def fillPerPage (q : QueryObj) (pp : JSValue) : QueryObj :=
  if truthyOpt q.perPage then q else { q with perPage := some pp }

/-- `if (!query.page) { query.page = 1 }` from `getQuery`. -/
def fillPage (q : QueryObj) : QueryObj :=
  if truthyOpt q.page then q else { q with page := some (.num (.int 1)) }

/-- The three `if (!query.…)` default-filling steps of `getQuery`, in
source order. -/
def fillQuery (q : QueryObj) (sort : SortObj) (perPage : JSValue) : QueryObj :=
  fillPage (fillPerPage (fillSort q sort) perPage)

/-- The final coercion in `getQuery`'s return: `page` and `perPage` run
through `getNumberOrDefault` with ultimate defaults 1 and 10. -/
def finalizeQuery (q : QueryObj) : QueryObj :=
  { q with
    page := some (getNumberOrDefault (q.page.getD .undef) 1),
    perPage := some (getNumberOrDefault (q.perPage.getD .undef) 10) }

/-- `getQuery({location, params, filterDefaultValues, sort, perPage})` from
the source: extract the URL query, select the winning source, fill missing
fields from the caller defaults, and coerce `page`/`perPage`. -/
def getQuery (a : GetQueryArgs) : QueryObj :=
  finalizeQuery
    (fillQuery (selectQuery (parseQueryFromLocation a.search) a.params a.filterDefaultValues)
      a.sort a.perPage)

/-! ### The stateful modifiers: `setFilters` (debounced), `hideFilter`, `showFilter`

The hook's mutable surroundings are modelled as an explicit state: the
URL's query (carried structurally — a pushed search string always
round-trips through the external `stringify`/`parse` serializers back to
the pushed parameter object), the store's persisted params, the
`displayedFilters` map, and the pending debounce timer. Side effects
(history `push`, store `dispatch`) are collected as an effect list. -/

mutual

/-- Structural size of an embedded value, for fuel bounds. -/
def sizeJS : JSValue → Nat
  | .obj fs => 1 + sizeFields fs
  | .arr es => 1 + sizeElems es
  | _ => 1

/-- Structural size of a field list. -/
def sizeFields : JSFields → Nat
  | .nil => 0
  | .cons _ v rest => 1 + sizeJS v + sizeFields rest

/-- Structural size of an element list. -/
def sizeElems : JSList → Nat
  | .nil => 0
  | .cons v rest => 1 + sizeJS v + sizeElems rest

end

mutual

/-- Lodash `isEqual` restricted to the embedded values: deep, key-order
insensitive on objects, with NaN equal to itself. Fuel-based; the wrapper
`isEqual` supplies sufficient fuel. -/
def isEqualF : Nat → JSValue → JSValue → Bool
  | 0, _, _ => false
  | fuel + 1, .obj fs, .obj gs => fs.length == gs.length && isEqualFieldsF fuel fs gs
  | fuel + 1, .arr xs, .arr ys => isEqualElemsF fuel xs ys
  | _ + 1, a, b => a == b

/-- Every field of the first list is bound in the second to a deeply equal
value (with the length check in `isEqualF` this is lodash's object case). -/
def isEqualFieldsF : Nat → JSFields → JSFields → Bool
  | _, .nil, _ => true
  | 0, .cons _ _ _, _ => false
  | fuel + 1, .cons k v rest, gs =>
    (match gs.lookup k with
     | some w => isEqualF fuel v w
     | none => false) &&
      isEqualFieldsF fuel rest gs

/-- Element-wise deep equality of arrays. -/
def isEqualElemsF : Nat → JSList → JSList → Bool
  | _, .nil, .nil => true
  | 0, .cons _ _, _ => false
  | fuel + 1, .cons x xs, .cons y ys => isEqualF fuel x y && isEqualElemsF fuel xs ys
  | _, _, _ => false

end

/-- Lodash `isEqual` with sufficient fuel. -/
def isEqual (a b : JSValue) : Bool :=
  isEqualF (sizeJS a + sizeJS b + 1) a b

/-- Modelled from the spec: the empty-value test of `removeEmpty`
(`../util/removeEmpty`, not in the excerpt) — "empty string, empty array,
null, undefined, empty object" count as empty. -/
def isEmptyVal : JSValue → Bool
  | .undef => true
  | .null => true
  | .str "" => true
  | .arr .nil => true
  | .obj .nil => true
  | _ => false

/-- Field-list filter for `removeEmpty`. -/
def removeEmptyFields : JSFields → JSFields
  | .nil => .nil
  | .cons k v rest =>
    if isEmptyVal v then removeEmptyFields rest else .cons k v (removeEmptyFields rest)

/-- Modelled from the spec: `removeEmpty` (`../util/removeEmpty`, not in
the excerpt) strips empty values from the filter object before a commit;
non-objects pass through. -/
def removeEmpty : JSValue → JSValue
  | .obj fs => .obj (removeEmptyFields fs)
  | v => v

/-- Field-list filter for `removeKey`. -/
def removeKeyFields (name : String) : JSFields → JSFields
  | .nil => .nil
  | .cons k v rest =>
    if k = name then removeKeyFields name rest else .cons k v (removeKeyFields name rest)

/-- Modelled from the spec: `removeKey` (`../util/removeKey`, not in the
excerpt) removes the named key from the filter-values object. -/
def removeKey (v : JSValue) (name : String) : JSValue :=
  match v with
  | .obj fs => .obj (removeKeyFields name fs)
  | v => v

/-- The object spread `{...filterValues, [filterName]: defaultValue}` in
`showFilter`: replace an existing binding in place or append a new one
(spreading a non-object contributes no fields). -/
def objSet (o : JSValue) (k : String) (v : JSValue) : JSValue :=
  match o with
  | .obj fs => .obj (insertField fs k v)
  | _ => .obj (insertField .nil k v)

/-- The hook options that stay fixed while the modifiers run: the caller
defaults and the debounce delay (500 by default in the source). -/
structure HookConfig where
  sort : SortObj
  perPage : JSValue
  filterDefaultValues : JSValue
  delay : Int
deriving DecidableEq, Repr

/-- A side effect of `changeParams`: a history `push` of the serialized
params, or a store `dispatch` of `changeListParams`. -/
inductive Effect where
  | push (params : QueryObj)
  | dispatch (params : QueryObj)
deriving DecidableEq, Repr

/-- The hook's surroundings: the URL query (structural), the persisted
store params, the `displayedFilters` map, and the pending debounce timer
(deadline and last-submitted filters payload). -/
structure HookState where
  locationQuery : QueryObj
  storedParams : Option QueryObj
  displayedFilters : List (String × Bool)
  pending : Option (Int × JSValue)
deriving DecidableEq, Repr

/-- The hook's `query` memo: `getQuery` over the current location and
stored params (the location already in structural form). -/
def mergedQuery (st : HookState) (cfg : HookConfig) : QueryObj :=
  finalizeQuery
    (fillQuery (selectQuery st.locationQuery st.storedParams cfg.filterDefaultValues)
      cfg.sort cfg.perPage)

/-- `filterValues = query.filter || emptyObject` from the source. -/
def filterValuesOf (st : HookState) (cfg : HookConfig) : JSValue :=
  filterOrEmpty ((mergedQuery st cfg).filter.getD .undef)

/-- Modelled from the spec: the `SET_FILTER` case of `queryReducer`
(`../reducer/.../queryReducer`, not in the excerpt) replaces the query's
filter with the action payload. -/
def setFilterAction (q : QueryObj) (payload : JSValue) : QueryObj :=
  { q with filter := some payload }

/-- `changeParams` on a `SET_FILTER` action: compute the new params through
the reducer, `push` the serialized query, `dispatch` the store update. -/
def commitFilter (st : HookState) (cfg : HookConfig) (payload : JSValue) :
    HookState × List Effect :=
  let np := setFilterAction (mergedQuery st cfg) payload
  ({ st with locationQuery := np, storedParams := some np },
    [.push np, .dispatch np])

/-- The debounced body of `setFilters`, run when the timer fires: skip when
the filters deeply equal the effective filter values, else strip empty
values and commit. -/
def fireSetFilters (st : HookState) (cfg : HookConfig) (payload : JSValue) :
    HookState × List Effect :=
  if isEqual payload (filterValuesOf st cfg) then (st, [])
  else commitFilter st cfg (removeEmpty payload)

/-- A `setFilters(filters)` call at time `now`: lodash debounce with
trailing edge only — (re)arm the timer `delay` ahead with the latest
payload. -/
def callSetFilters (st : HookState) (now delay : Int) (payload : JSValue) : HookState :=
  { st with pending := some (now + delay, payload) }

/-- Fire the pending timer, if any, at its deadline. -/
def flushPending (cfg : HookConfig) (st : HookState) :
    HookState × List (Int × List Effect) :=
  match st.pending with
  | some (dl, p) =>
    let r := fireSetFilters { st with pending := none } cfg p
    (r.1, [(dl, r.2)])
  | none => (st, [])

/-- Process one timed `setFilters` call: a timer due before the call fires
first, then the call re-arms the debounce. -/
def stepCall (cfg : HookConfig) (st : HookState) (t : Int) (p : JSValue) :
    HookState × List (Int × List Effect) :=
  match st.pending with
  | some (dl, q) =>
    if dl ≤ t then
      let r := fireSetFilters { st with pending := none } cfg q
      (callSetFilters r.1 t cfg.delay p, [(dl, r.2)])
    else (callSetFilters st t cfg.delay p, [])
  | none => (callSetFilters st t cfg.delay p, [])

/-- Run a time-ordered sequence of `setFilters` calls to quiescence: fire
due timers between calls and flush the final timer. The trace pairs each
firing's time with the effects it produced (an empty list when the deep-
equality guard skipped the commit). -/
def runCalls (cfg : HookConfig) (st : HookState) :
    List (Int × JSValue) → HookState × List (Int × List Effect)
  | [] => flushPending cfg st
  | (t, p) :: rest =>
    let r := stepCall cfg st t p
    let r2 := runCalls cfg r.1 rest
    (r2.1, r.2 ++ r2.2)

/-- `hideFilter(filterName)` from the source: replace `displayedFilters`
with `{[filterName]: false}`, then submit the filter values without the
named key through the debounced `setFilters`. -/
def hideFilter (st : HookState) (cfg : HookConfig) (now : Int) (name : String) :
    HookState :=
  let st1 := { st with displayedFilters := [(name, false)] }
  callSetFilters st1 now cfg.delay (removeKey (filterValuesOf st1 cfg) name)

/-- `showFilter(filterName, defaultValue)` from the source: replace
`displayedFilters` with `{[filterName]: true}`, and when the default value
is not `undefined`, submit the filter values extended with it through the
debounced `setFilters`. -/
def showFilter (st : HookState) (cfg : HookConfig) (now : Int) (name : String)
    (dv : JSValue) : HookState :=
  let st1 := { st with displayedFilters := [(name, true)] }
  if dv ≠ .undef then
    callSetFilters st1 now cfg.delay (objSet (filterValuesOf st1 cfg) name dv)
  else st1

/-- The entry a filter-values object holds for a name (reading a
non-object gives nothing). -/
def filterEntry (fv : JSValue) (name : String) : Option JSValue :=
  match fv with
  | .obj fs => fs.lookup name
  | _ => none

/-- A working-query value that cannot make the coerced page or page size
escape below 1: it coerces (through the string-to-`parseInt` step of
`getNumberOrDefault`) to a nonnegative number or NaN, or is falsy.
Negative numbers and truthy non-numeric values are excluded — those pass
through `x || default` unchanged. -/
def nonNegUpstream (v : JSValue) : Bool :=
  match coerceNum v with
  | .num (.int i) => decide (0 ≤ i)
  | .num .nan => true
  | w => !w.truthy

/-- The hook's source defaults (`sort = {field: 'id', order: SORT_ASC}`,
`perPage = 10`, no filter defaults, `debounce = 500`), for concrete runs. -/
def sampleConfig : HookConfig :=
  ⟨⟨.str "id", .str "ASC"⟩, .num (.int 10), .undef, 500⟩

/-- A pristine machine state: empty URL query, no persisted params, no
displayed filters, no pending debounce timer. -/
def initialState : HookState := ⟨QueryObj.empty, none, [], none⟩

/-! ### Supporting lemmas -/

theorem coerceNum_ne_str (v : JSValue) (s : String) : coerceNum v ≠ .str s := by
  cases v <;> simp [coerceNum]

theorem getNumberOrDefault_truthy (v : JSValue) (d : Int) (hd : d ≠ 0) :
    (getNumberOrDefault v d).truthy = true := by
  unfold getNumberOrDefault
  split
  · assumption
  · simp [JSValue.truthy, hd]

theorem getNumberOrDefault_not_nullish (v : JSValue) (d : Int) :
    looseNeqNull (some (getNumberOrDefault v d)) = true := by
  unfold getNumberOrDefault
  split
  · rename_i h
    cases hc : coerceNum v <;> rw [hc] at h <;> simp_all [JSValue.truthy, looseNeqNull]
  · simp [looseNeqNull]

theorem coerceNum_getNumberOrDefault (v : JSValue) (d : Int) :
    coerceNum (getNumberOrDefault v d) = getNumberOrDefault v d := by
  unfold getNumberOrDefault
  split
  · cases hc : coerceNum v
    case str s => exact absurd hc (coerceNum_ne_str v s)
    all_goals simp [coerceNum]
  · simp [coerceNum]

theorem getNumberOrDefault_idem (v : JSValue) (d : Int) (hd : d ≠ 0) :
    getNumberOrDefault (getNumberOrDefault v d) d = getNumberOrDefault v d := by
  have h1 := getNumberOrDefault_truthy v d hd
  conv_lhs => rw [getNumberOrDefault]
  rw [coerceNum_getNumberOrDefault, if_pos h1]

theorem finalizeQuery_sort (q : QueryObj) : (finalizeQuery q).sort = q.sort := rfl

theorem finalizeQuery_order (q : QueryObj) : (finalizeQuery q).order = q.order := rfl

theorem finalizeQuery_filter (q : QueryObj) : (finalizeQuery q).filter = q.filter := rfl

theorem finalizeQuery_page (q : QueryObj) :
    (finalizeQuery q).page = some (getNumberOrDefault (q.page.getD .undef) 1) := rfl

theorem finalizeQuery_perPage (q : QueryObj) :
    (finalizeQuery q).perPage = some (getNumberOrDefault (q.perPage.getD .undef) 10) := rfl

theorem finalizeQuery_keyCount_pos (q : QueryObj) : 0 < (finalizeQuery q).keyCount := by
  unfold QueryObj.keyCount finalizeQuery
  simp

theorem fillSort_filter (q : QueryObj) (s : SortObj) : (fillSort q s).filter = q.filter := by
  unfold fillSort; split <;> rfl

theorem fillPerPage_filter (q : QueryObj) (pp : JSValue) :
    (fillPerPage q pp).filter = q.filter := by
  unfold fillPerPage; split <;> rfl

theorem fillPage_filter (q : QueryObj) : (fillPage q).filter = q.filter := by
  unfold fillPage; split <;> rfl

theorem fillQuery_filter (q : QueryObj) (s : SortObj) (pp : JSValue) :
    (fillQuery q s pp).filter = q.filter := by
  unfold fillQuery
  rw [fillPage_filter, fillPerPage_filter, fillSort_filter]

theorem fillPerPage_sort (q : QueryObj) (pp : JSValue) : (fillPerPage q pp).sort = q.sort := by
  unfold fillPerPage; split <;> rfl

theorem fillPerPage_order (q : QueryObj) (pp : JSValue) :
    (fillPerPage q pp).order = q.order := by
  unfold fillPerPage; split <;> rfl

theorem fillPage_sort (q : QueryObj) : (fillPage q).sort = q.sort := by
  unfold fillPage; split <;> rfl

theorem fillPage_order (q : QueryObj) : (fillPage q).order = q.order := by
  unfold fillPage; split <;> rfl

theorem fillSort_spec (q : QueryObj) (s : SortObj) :
    truthyOpt (fillSort q s).sort = true ∨
      ((fillSort q s).sort = some s.field ∧ (fillSort q s).order = some s.order) := by
  unfold fillSort
  by_cases h : truthyOpt q.sort = true
  · left; rw [if_pos h]; exact h
  · right; rw [if_neg h]; exact ⟨rfl, rfl⟩

theorem fillQuery_sort_spec (q : QueryObj) (s : SortObj) (pp : JSValue) :
    truthyOpt (fillQuery q s pp).sort = true ∨
      ((fillQuery q s pp).sort = some s.field ∧ (fillQuery q s pp).order = some s.order) := by
  unfold fillQuery
  rw [fillPage_sort, fillPerPage_sort, fillPage_order, fillPerPage_order]
  exact fillSort_spec q s

theorem hasCustomParams_filter (p : QueryObj) (h : hasCustomParams (some p) = true) :
    ∃ f, p.filter = some f ∧ f.truthy = true := by
  cases hf : p.filter with
  | none => simp only [hasCustomParams, hf] at h; exact absurd h (by simp)
  | some f =>
    simp only [hasCustomParams, hf, Bool.and_eq_true] at h
    exact ⟨f, rfl, h.1⟩

theorem truthyOpt_some_of (v : Option JSValue) (h : truthyOpt v = true) :
    ∃ f, v = some f ∧ f.truthy = true := by
  cases v with
  | none => exact absurd h (by simp [truthyOpt, JSValue.truthy])
  | some f => exact ⟨f, rfl, h⟩

theorem filterOrEmpty_truthy (fdv : JSValue) : (filterOrEmpty fdv).truthy = true := by
  unfold filterOrEmpty
  split
  · assumption
  · rfl

theorem getNumberOrDefault_ge_one (v : JSValue) (d : Int) (hd : 1 ≤ d)
    (h : nonNegUpstream v = true) :
    ∃ n : Int, 1 ≤ n ∧ getNumberOrDefault v d = .num (.int n) := by
  unfold getNumberOrDefault
  unfold nonNegUpstream at h
  cases hc : coerceNum v with
  | num n =>
    cases n with
    | int i =>
      rw [hc] at h
      simp only [decide_eq_true_iff] at h
      by_cases hz : i = 0
      · subst hz
        rw [if_neg (by simp [JSValue.truthy])]
        exact ⟨d, hd, rfl⟩
      · rw [if_pos (by simp [JSValue.truthy, hz])]
        exact ⟨i, by omega, rfl⟩
    | nan =>
      rw [if_neg (by simp [JSValue.truthy])]
      exact ⟨d, hd, rfl⟩
  | undef =>
    rw [if_neg (by simp [JSValue.truthy])]
    exact ⟨d, hd, rfl⟩
  | null =>
    rw [if_neg (by simp [JSValue.truthy])]
    exact ⟨d, hd, rfl⟩
  | bool b =>
    rw [hc] at h
    simp only [Bool.not_eq_true'] at h
    rw [if_neg (by simp [h])]
    exact ⟨d, hd, rfl⟩
  | str s =>
    rw [hc] at h
    simp only [Bool.not_eq_true'] at h
    rw [if_neg (by simp [h])]
    exact ⟨d, hd, rfl⟩
  | obj fs =>
    rw [hc] at h
    simp [JSValue.truthy] at h
  | arr es =>
    rw [hc] at h
    simp [JSValue.truthy] at h

theorem selectQuery_empty_custom (p : QueryObj) (fdv : JSValue)
    (hc : hasCustomParams (some p) = true) :
    selectQuery QueryObj.empty (some p) fdv = p := by
  simp only [selectQuery]
  rw [if_neg (by decide), if_pos hc]

/-- Filling and finalizing is the identity on a query whose sort either is
truthy or already carries the default, and whose page and per-page already
went through `getNumberOrDefault`. -/
theorem fill_finalize_fixpoint (m : QueryObj) (s : SortObj) (pp : JSValue)
    (hsort : truthyOpt m.sort = true ∨ (m.sort = some s.field ∧ m.order = some s.order))
    (hpage : ∃ u, m.page = some (getNumberOrDefault u 1))
    (hperPage : ∃ u, m.perPage = some (getNumberOrDefault u 10)) :
    finalizeQuery (fillQuery m s pp) = m := by
  obtain ⟨up, hup⟩ := hpage
  obtain ⟨upp, hupp⟩ := hperPage
  have hptr : truthyOpt m.page = true := by
    rw [hup]; simpa [truthyOpt] using getNumberOrDefault_truthy up 1 (by norm_num)
  have hpptr : truthyOpt m.perPage = true := by
    rw [hupp]; simpa [truthyOpt] using getNumberOrDefault_truthy upp 10 (by norm_num)
  have h1 : fillSort m s = m := by
    unfold fillSort
    rcases hsort with h | ⟨ha, hb⟩
    · rw [if_pos h]
    · split
      · rfl
      · cases m
        simp_all
  have h2 : fillPerPage m pp = m := by
    unfold fillPerPage
    rw [if_pos hpptr]
  have h3 : fillPage m = m := by
    unfold fillPage
    rw [if_pos hptr]
  unfold fillQuery
  rw [h1, h2, h3]
  unfold finalizeQuery
  rw [hup, hupp]
  cases m with
  | mk p1 p2 p3 p4 p5 =>
    simp only [QueryObj.mk.injEq] at hup hupp ⊢
    subst hup
    subst hupp
    simp [Option.getD, getNumberOrDefault_idem up 1 (by norm_num),
      getNumberOrDefault_idem upp 10 (by norm_num)]

/-- The merged query's sort is truthy or carries the caller default. -/
theorem merged_sort_spec (q : QueryObj) (s : SortObj) (pp : JSValue) :
    truthyOpt (finalizeQuery (fillQuery q s pp)).sort = true ∨
      ((finalizeQuery (fillQuery q s pp)).sort = some s.field ∧
        (finalizeQuery (fillQuery q s pp)).order = some s.order) := by
  rw [finalizeQuery_sort, finalizeQuery_order]
  exact fillQuery_sort_spec q s pp

/-- A merged query with its filter replaced still satisfies the fixpoint
conditions, so re-merging it is the identity. -/
theorem refill_fixpoint (q : QueryObj) (s : SortObj) (pp : JSValue) (f : Option JSValue) :
    finalizeQuery (fillQuery { finalizeQuery (fillQuery q s pp) with filter := f } s pp) =
      { finalizeQuery (fillQuery q s pp) with filter := f } := by
  apply fill_finalize_fixpoint
  · have := merged_sort_spec q s pp
    simpa using this
  · exact ⟨(fillQuery q s pp).page.getD .undef, rfl⟩
  · exact ⟨(fillQuery q s pp).perPage.getD .undef, rfl⟩

theorem insertField_lookup : ∀ (fs : JSFields) (k : String) (v : JSValue),
    (insertField fs k v).lookup k = some v
  | .nil, k, v => by simp [insertField, JSFields.lookup]
  | .cons l w rest, k, v => by
    by_cases h : l = k
    · simp [insertField, JSFields.lookup, h]
    · simp [insertField, JSFields.lookup, h, insertField_lookup rest k v]

theorem removeEmptyFields_lookup : ∀ (fs : JSFields) (k : String) (v : JSValue),
    isEmptyVal v = false → fs.lookup k = some v →
    (removeEmptyFields fs).lookup k = some v
  | .nil, k, v, _, h => by simp [JSFields.lookup] at h
  | .cons l w rest, k, v, hv, h => by
    by_cases hk : l = k
    · subst hk
      simp only [JSFields.lookup, if_true, eq_self_iff_true, Option.some_inj] at h
      subst h
      simp [removeEmptyFields, hv, JSFields.lookup]
    · simp only [JSFields.lookup, if_neg hk] at h
      by_cases he : isEmptyVal w
      · simpa [removeEmptyFields, he] using removeEmptyFields_lookup rest k v hv h
      · simp [removeEmptyFields, he, JSFields.lookup, hk,
          removeEmptyFields_lookup rest k v hv h]

theorem removeEmptyFields_lookup_none : ∀ (fs : JSFields) (k : String),
    fs.lookup k = none → (removeEmptyFields fs).lookup k = none
  | .nil, k, _ => by simp [removeEmptyFields, JSFields.lookup]
  | .cons l w rest, k, h => by
    by_cases hk : l = k
    · simp [JSFields.lookup, hk] at h
    · simp only [JSFields.lookup, if_neg hk] at h
      by_cases he : isEmptyVal w
      · simpa [removeEmptyFields, he] using removeEmptyFields_lookup_none rest k h
      · simp [removeEmptyFields, he, JSFields.lookup, hk,
          removeEmptyFields_lookup_none rest k h]

theorem removeKeyFields_lookup_self : ∀ (fs : JSFields) (k : String),
    (removeKeyFields k fs).lookup k = none
  | .nil, k => by simp [removeKeyFields, JSFields.lookup]
  | .cons l w rest, k => by
    by_cases hk : l = k
    · simpa [removeKeyFields, hk] using removeKeyFields_lookup_self rest k
    · simp [removeKeyFields, hk, JSFields.lookup, removeKeyFields_lookup_self rest k]

theorem hasKey_of_lookup : ∀ (fs : JSFields) (k : String) (v : JSValue),
    fs.lookup k = some v → fs.hasKey k = true
  | .nil, k, v, h => by simp [JSFields.lookup] at h
  | .cons l w rest, k, v, h => by
    by_cases hk : l = k
    · simp [JSFields.hasKey, hk]
    · simp only [JSFields.lookup, if_neg hk] at h
      simp [JSFields.hasKey, hk, hasKey_of_lookup rest k v h]

theorem removeKeyFields_length_le : ∀ (fs : JSFields) (k : String),
    (removeKeyFields k fs).length ≤ fs.length
  | .nil, k => by simp [removeKeyFields]
  | .cons l w rest, k => by
    have := removeKeyFields_length_le rest k
    by_cases hk : l = k
    · simp only [removeKeyFields, if_pos hk, JSFields.length]
      omega
    · simp only [removeKeyFields, if_neg hk, JSFields.length]
      omega

theorem removeKeyFields_length_lt : ∀ (fs : JSFields) (k : String),
    fs.hasKey k = true → (removeKeyFields k fs).length < fs.length
  | .nil, k, h => by simp [JSFields.hasKey] at h
  | .cons l w rest, k, h => by
    by_cases hk : l = k
    · have := removeKeyFields_length_le rest k
      simp only [removeKeyFields, if_pos hk, JSFields.length]
      omega
    · simp only [JSFields.hasKey, hk] at h
      have := removeKeyFields_length_lt rest k (by simpa using h)
      simp only [removeKeyFields, if_neg hk, JSFields.length]
      omega

theorem isEqual_obj_of_length_ne (xs ys : JSFields) (h : xs.length ≠ ys.length) :
    isEqual (.obj xs) (.obj ys) = false := by
  unfold isEqual
  show isEqualF (sizeJS (JSValue.obj xs) + sizeJS (JSValue.obj ys) + 1) _ _ = false
  rw [show sizeJS (JSValue.obj xs) + sizeJS (JSValue.obj ys) + 1 =
    (sizeJS (JSValue.obj xs) + sizeJS (JSValue.obj ys)) + 1 from rfl]
  unfold isEqualF
  simp [h]

theorem keyCount_pos_of_page (q : QueryObj) (h : q.page.isSome = true) :
    0 < q.keyCount := by
  unfold QueryObj.keyCount
  rw [if_pos h]
  omega

theorem objSet_fields (fv : JSValue) (name : String) (dv : JSValue) :
    ∃ fs0, objSet fv name dv = .obj (insertField fs0 name dv) := by
  cases fv <;> exact ⟨_, rfl⟩

/-- Re-merging a committed parameter object (a merged query with its filter
replaced, sitting in both the location and the store) gives it back
unchanged. -/
theorem merge_committed (cfg : HookConfig) (q0 : QueryObj) (f : Option JSValue)
    (sp : Option QueryObj) :
    finalizeQuery (fillQuery (selectQuery
        { finalizeQuery (fillQuery q0 cfg.sort cfg.perPage) with filter := f }
        sp cfg.filterDefaultValues) cfg.sort cfg.perPage) =
      { finalizeQuery (fillQuery q0 cfg.sort cfg.perPage) with filter := f } := by
  have hsel : selectQuery
      { finalizeQuery (fillQuery q0 cfg.sort cfg.perPage) with filter := f }
      sp cfg.filterDefaultValues =
      { finalizeQuery (fillQuery q0 cfg.sort cfg.perPage) with filter := f } := by
    unfold selectQuery
    rw [if_pos (keyCount_pos_of_page _ (by rfl))]
  rw [hsel]
  exact refill_fixpoint q0 cfg.sort cfg.perPage f

theorem fireSetFilters_skip (st : HookState) (cfg : HookConfig) (p : JSValue)
    (h : isEqual p (filterValuesOf st cfg) = true) :
    fireSetFilters st cfg p = (st, []) := by
  unfold fireSetFilters
  rw [if_pos h]

theorem fireSetFilters_commit (st : HookState) (cfg : HookConfig) (p : JSValue)
    (h : isEqual p (filterValuesOf st cfg) = false) :
    fireSetFilters st cfg p = commitFilter st cfg (removeEmpty p) := by
  unfold fireSetFilters
  rw [if_neg (by simp [h])]

theorem flushPending_some (cfg : HookConfig) (lq : QueryObj) (sp : Option QueryObj)
    (d : List (String × Bool)) (dl : Int) (p : JSValue) :
    flushPending cfg ⟨lq, sp, d, some (dl, p)⟩ =
      ((fireSetFilters ⟨lq, sp, d, none⟩ cfg p).1,
        [(dl, (fireSetFilters ⟨lq, sp, d, none⟩ cfg p).2)]) := rfl

theorem stepCall_none (cfg : HookConfig) (lq : QueryObj) (sp : Option QueryObj)
    (d : List (String × Bool)) (t : Int) (p : JSValue) :
    stepCall cfg ⟨lq, sp, d, none⟩ t p = (⟨lq, sp, d, some (t + cfg.delay, p)⟩, []) := rfl

theorem stepCall_later (cfg : HookConfig) (lq : QueryObj) (sp : Option QueryObj)
    (d : List (String × Bool)) (dl : Int) (q : JSValue) (t : Int) (p : JSValue)
    (h : ¬ dl ≤ t) :
    stepCall cfg ⟨lq, sp, d, some (dl, q)⟩ t p =
      (⟨lq, sp, d, some (t + cfg.delay, p)⟩, []) := by
  simp only [stepCall]
  rw [if_neg h]
  rfl

/-! ### The claims -/

/-- C1: `getQuery` applies a strict three-way precedence wholesale — a URL
query with at least one recognized key becomes the working query entirely
(stored params are ignored even for fields the URL omits, which fall back
to the caller defaults in the fill steps); otherwise custom stored params
win entirely; otherwise the working query is
`{filter: filterDefaultValues || {}}`. Concretely,
`getQuery({location: {search: "?page=3"}, params: {page: 5, filter: {a: 1}},
sort: {field: "id", order: "ASC"}, perPage: 10})` returns
`{page: 3, perPage: 10, sort: "id", order: "ASC"}` with no filter key. -/
theorem getQuery_three_way_precedence :
    (∀ a : GetQueryArgs, 0 < (parseQueryFromLocation a.search).keyCount →
      getQuery a =
        finalizeQuery (fillQuery (parseQueryFromLocation a.search) a.sort a.perPage)) ∧
    (∀ a : GetQueryArgs, (parseQueryFromLocation a.search).keyCount = 0 →
      ∀ p, a.params = some p → hasCustomParams (some p) = true →
        getQuery a = finalizeQuery (fillQuery p a.sort a.perPage)) ∧
    (∀ a : GetQueryArgs, (parseQueryFromLocation a.search).keyCount = 0 →
      hasCustomParams a.params = false →
      getQuery a = finalizeQuery (fillQuery
        ⟨none, none, none, none, some (filterOrEmpty a.filterDefaultValues)⟩
        a.sort a.perPage)) ∧
    getQuery ⟨"?page=3",
        some ⟨some (.num (.int 5)), none, none, none,
          some (.obj (.cons "a" (.num (.int 1)) .nil))⟩,
        .undef, ⟨.str "id", .str "ASC"⟩, .num (.int 10)⟩ =
      ⟨some (.num (.int 3)), some (.num (.int 10)), some (.str "id"),
        some (.str "ASC"), none⟩ := by
  refine ⟨?_, ?_, ?_, by decide⟩
  · intro a h
    unfold getQuery selectQuery
    rw [if_pos h]
  · intro a h p hp hc
    simp only [getQuery, selectQuery, hp]
    rw [if_neg (by omega), if_pos hc]
  · intro a h hc
    cases hp : a.params with
    | none =>
      simp only [getQuery, selectQuery, hp]
      rw [if_neg (by omega)]
    | some p =>
      rw [hp] at hc
      simp only [getQuery, selectQuery, hp]
      rw [if_neg (by omega), if_neg (by simp [hc])]

/-- Witness for C1: on the concrete search `"?page=3"` the URL branch
applies. -/
theorem getQuery_three_way_precedence_witness :
    getQuery ⟨"?page=3", none, .undef, ⟨.str "id", .str "ASC"⟩, .num (.int 10)⟩ =
      finalizeQuery (fillQuery (parseQueryFromLocation "?page=3")
        ⟨.str "id", .str "ASC"⟩ (.num (.int 10))) :=
  getQuery_three_way_precedence.1
    ⟨"?page=3", none, .undef, ⟨.str "id", .str "ASC"⟩, .num (.int 10)⟩ (by decide)

/-- C4 as stated fails: the query-string value `""` of the filter key is
not valid JSON (`JSON.parse("")` throws), yet `parseQueryFromLocation`
keeps the filter key with value `""`, because the source only attempts
JSON parsing when the filter is a truthy string. -/
theorem parseQueryFromLocation_empty_filter_kept :
    jsonParse "" = none ∧
    parseQueryFromLocation "?filter=" = ⟨none, none, none, none, some (.str "")⟩ :=
  ⟨rfl, rfl⟩

/-- C4 amended: for every truthy (nonempty) string value of the filter key
that fails JSON parsing, `parseQueryFromLocation` omits the filter key
entirely while keeping all other recognized keys unchanged; falsy or
non-string filter values are left as-is. The whole extract path is a total
function of the query string — the modelled `JSON.parse` failure is an
`Option` consumed right here, so no input reaches an error. -/
theorem parseQueryFromLocation_drops_invalid_filter :
    ∀ (search s : String),
      (pickValid (queryStringParse search)).filter = some (.str s) →
      s ≠ "" → jsonParse s = none →
      parseQueryFromLocation search =
        { pickValid (queryStringParse search) with filter := none } := by
  intro search s hf hs hj
  simp only [parseQueryFromLocation]
  rw [hf]
  simp [hs, hj]

/-- Witness for C4 (amended): `"notjson"` is rejected by the JSON parser
and the filter key is dropped while `page` survives. -/
theorem parseQueryFromLocation_drops_invalid_filter_witness :
    parseQueryFromLocation "?filter=notjson&page=2" =
      { pickValid (queryStringParse "?filter=notjson&page=2") with filter := none } :=
  parseQueryFromLocation_drops_invalid_filter "?filter=notjson&page=2" "notjson"
    rfl (by decide) rfl

/-- C5: `hasCustomParams(params)` is truthy exactly when params is defined,
its filter is truthy, and at least one of the following holds: the filter
has at least one key, order is non-null, page is not (strictly) 1, perPage
is non-null, sort is non-null. Undefined params, and params whose filter is
null or absent, are never custom even when the other fields are set. -/
theorem hasCustomParams_spec :
    (∀ p : QueryObj, hasCustomParams (some p) = true ↔
      ∃ f, p.filter = some f ∧ f.truthy = true ∧
        (0 < f.keyLen ∨ looseNeqNull p.order = true ∨
          p.page ≠ some (.num (.int 1)) ∨ looseNeqNull p.perPage = true ∨
          looseNeqNull p.sort = true)) ∧
    hasCustomParams none = false ∧
    (∀ p : QueryObj, (p.filter = none ∨ p.filter = some .null) →
      hasCustomParams (some p) = false) := by
  refine ⟨?_, rfl, ?_⟩
  · intro p
    cases hf : p.filter with
    | none => simp [hasCustomParams, hf]
    | some f =>
      simp only [hasCustomParams, hf, Bool.and_eq_true, Bool.or_eq_true,
        decide_eq_true_iff]
      constructor
      · rintro ⟨h1, h2⟩
        exact ⟨f, rfl, h1, by tauto⟩
      · rintro ⟨g, hg, h1, h2⟩
        obtain rfl : f = g := Option.some_inj.mp hg
        exact ⟨h1, by tauto⟩
  · intro p hp
    rcases hp with h | h <;> simp [hasCustomParams, h, JSValue.truthy]

/-- Witness for C5: params whose filter is `{a: 1}` are custom. -/
theorem hasCustomParams_spec_witness :
    hasCustomParams (some ⟨none, none, none, none,
      some (.obj (.cons "a" (.num (.int 1)) .nil))⟩) = true :=
  (hasCustomParams_spec.1 _).mpr ⟨_, rfl, rfl, Or.inl (by decide)⟩

/-- C2 as stated fails: on `?page=-5` the merged output's page is -5, a
number below 1 — a negative upstream value is truthy, so the `|| default`
fallback in `getNumberOrDefault` never fires for it. -/
theorem getQuery_negative_page :
    (getQuery ⟨"?page=-5", none, .undef, ⟨.str "id", .str "ASC"⟩,
        .num (.int 10)⟩).page = some (.num (.int (-5))) ∧ ¬ (1 : Int) ≤ -5 :=
  ⟨rfl, by omega⟩

/-- C2 amended: the merged `page` and `perPage` are numbers ≥ 1 — with
fallback to `getNumberOrDefault`'s built-in defaults 1 and 10 for absent,
zero, NaN or non-numeric (falsy) working values — provided the working
value does not coerce to a negative number (negative numbers and negative
numeric strings pass through `x || default` unchanged, and truthy
non-numeric values pass through unconverted). -/
theorem getQuery_page_perPage_ge_one :
    ∀ a : GetQueryArgs,
      (nonNegUpstream ((fillQuery (selectQuery (parseQueryFromLocation a.search) a.params
            a.filterDefaultValues) a.sort a.perPage).page.getD .undef) = true →
        ∃ n : Int, 1 ≤ n ∧ (getQuery a).page = some (.num (.int n))) ∧
      (nonNegUpstream ((fillQuery (selectQuery (parseQueryFromLocation a.search) a.params
            a.filterDefaultValues) a.sort a.perPage).perPage.getD .undef) = true →
        ∃ n : Int, 1 ≤ n ∧ (getQuery a).perPage = some (.num (.int n))) := by
  intro a
  constructor
  · intro h
    obtain ⟨n, h1, h2⟩ := getNumberOrDefault_ge_one _ 1 (by norm_num) h
    exact ⟨n, h1, by rw [← h2]; rfl⟩
  · intro h
    obtain ⟨n, h1, h2⟩ := getNumberOrDefault_ge_one _ 10 (by norm_num) h
    exact ⟨n, h1, by rw [← h2]; rfl⟩

/-- Witness for C2 (amended): `?page=0` resolves to page 1. -/
theorem getQuery_page_perPage_ge_one_witness :
    ∃ n : Int, 1 ≤ n ∧
      (getQuery ⟨"?page=0", none, .undef, ⟨.str "id", .str "ASC"⟩,
          .num (.int 10)⟩).page = some (.num (.int n)) :=
  (getQuery_page_perPage_ge_one ⟨"?page=0", none, .undef, ⟨.str "id", .str "ASC"⟩,
    .num (.int 10)⟩).1 (by decide)

/-- C3 as stated fails: with `?page=2` the URL branch wins without
contributing a filter, and the merged output has no filter key at all. -/
theorem getQuery_filter_absent :
    (getQuery ⟨"?page=2", none, .undef, ⟨.str "id", .str "ASC"⟩,
        .num (.int 10)⟩).filter = none := rfl

/-- C3 amended: the merged output's filter is a defined, truthy value
whenever the URL query contributes no recognized key (the custom stored
filter, or `filterDefaultValues || {}`); when the URL wins, the filter is
whatever the URL provided and may be absent or falsy. -/
theorem getQuery_filter_truthy_of_no_url_key :
    ∀ a : GetQueryArgs, (parseQueryFromLocation a.search).keyCount = 0 →
      truthyOpt (getQuery a).filter = true := by
  intro a h
  have hfil : (getQuery a).filter =
      (selectQuery (parseQueryFromLocation a.search) a.params a.filterDefaultValues).filter := by
    show (finalizeQuery _).filter = _
    rw [finalizeQuery_filter, fillQuery_filter]
  rw [hfil]
  simp only [selectQuery]
  rw [if_neg (by omega)]
  cases hp : a.params with
  | none => simpa [truthyOpt] using filterOrEmpty_truthy a.filterDefaultValues
  | some p =>
    show truthyOpt (if hasCustomParams (some p) = true then p
      else ⟨none, none, none, none, some (filterOrEmpty a.filterDefaultValues)⟩ :
        QueryObj).filter = true
    by_cases hc : hasCustomParams (some p) = true
    · rw [if_pos hc]
      obtain ⟨f, hf, hft⟩ := hasCustomParams_filter p hc
      rw [hf]
      simpa [truthyOpt] using hft
    · rw [if_neg hc]
      simpa [truthyOpt] using filterOrEmpty_truthy a.filterDefaultValues

/-- Witness for C3 (amended): an empty search leaves the URL empty and the
defaults branch supplies `{}`. -/
theorem getQuery_filter_truthy_witness :
    truthyOpt (getQuery ⟨"", none, .undef, ⟨.str "id", .str "ASC"⟩,
        .num (.int 10)⟩).filter = true :=
  getQuery_filter_truthy_of_no_url_key
    ⟨"", none, .undef, ⟨.str "id", .str "ASC"⟩, .num (.int 10)⟩ (by decide)

/-- C6 as stated fails: feeding the `?page=3` output (which carries no
filter key) back as params with an empty location makes `hasCustomParams`
falsy, so the defaults branch applies and the page resets to 1 ≠ 3. -/
theorem getQuery_not_idempotent :
    (getQuery ⟨"", some (getQuery ⟨"?page=3", none, .undef, ⟨.str "id", .str "ASC"⟩,
        .num (.int 10)⟩), .undef, ⟨.str "id", .str "ASC"⟩, .num (.int 10)⟩).page ≠
      (getQuery ⟨"?page=3", none, .undef, ⟨.str "id", .str "ASC"⟩,
        .num (.int 10)⟩).page := by decide

/-- C6 amended: `getQuery` is idempotent — feeding its output back as the
params with an empty location and the same caller defaults reproduces the
output exactly (page, perPage, sort, order and filter) — whenever the
output's filter is present and truthy, which holds except when the URL
branch wins without contributing a truthy filter. -/
theorem getQuery_idempotent_of_truthy_filter :
    ∀ a : GetQueryArgs, truthyOpt (getQuery a).filter = true →
      getQuery ⟨"", some (getQuery a), a.filterDefaultValues, a.sort, a.perPage⟩ =
        getQuery a := by
  intro a h
  obtain ⟨f, hf, hft⟩ := truthyOpt_some_of _ h
  have hpp : looseNeqNull (getQuery a).perPage = true := by
    show looseNeqNull (some (getNumberOrDefault _ 10)) = true
    exact getNumberOrDefault_not_nullish _ 10
  have hcustom : hasCustomParams (some (getQuery a)) = true := by
    simp only [hasCustomParams, hf]
    simp [hft, hpp]
  calc getQuery ⟨"", some (getQuery a), a.filterDefaultValues, a.sort, a.perPage⟩
      = finalizeQuery (fillQuery (selectQuery (parseQueryFromLocation "")
          (some (getQuery a)) a.filterDefaultValues) a.sort a.perPage) := rfl
    _ = finalizeQuery (fillQuery (getQuery a) a.sort a.perPage) := by
        rw [show parseQueryFromLocation "" = QueryObj.empty from rfl,
          selectQuery_empty_custom _ _ hcustom]
    _ = getQuery a := by
        exact fill_finalize_fixpoint (getQuery a) a.sort a.perPage
          (merged_sort_spec (selectQuery (parseQueryFromLocation a.search) a.params
            a.filterDefaultValues) a.sort a.perPage)
          ⟨(fillQuery (selectQuery (parseQueryFromLocation a.search) a.params
            a.filterDefaultValues) a.sort a.perPage).page.getD .undef, rfl⟩
          ⟨(fillQuery (selectQuery (parseQueryFromLocation a.search) a.params
            a.filterDefaultValues) a.sort a.perPage).perPage.getD .undef, rfl⟩

/-- Witness for C6 (amended): the defaults-branch output (whose filter is
`{}`) reproduces itself. -/
theorem getQuery_idempotent_witness :
    getQuery ⟨"", some (getQuery ⟨"", none, .undef, ⟨.str "id", .str "ASC"⟩,
        .num (.int 10)⟩), .undef, ⟨.str "id", .str "ASC"⟩, .num (.int 10)⟩ =
      getQuery ⟨"", none, .undef, ⟨.str "id", .str "ASC"⟩, .num (.int 10)⟩ :=
  getQuery_idempotent_of_truthy_filter
    ⟨"", none, .undef, ⟨.str "id", .str "ASC"⟩, .num (.int 10)⟩ (by decide)

/-- C7: calling `setFilters` with a filters object deeply equal to the
currently-effective filter values performs no side effect at all: running
the call to quiescence, the single debounced firing (at call time plus
delay) emits no navigation push and no store dispatch, and the URL query
and persisted store params are unchanged. -/
theorem setFilters_deep_equal_noop :
    ∀ (st : HookState) (cfg : HookConfig) (t : Int) (p : JSValue),
      st.pending = none →
      isEqual p (filterValuesOf st cfg) = true →
      (runCalls cfg st [(t, p)]).1.locationQuery = st.locationQuery ∧
      (runCalls cfg st [(t, p)]).1.storedParams = st.storedParams ∧
      (runCalls cfg st [(t, p)]).2 = [(t + cfg.delay, [])] := by
  rintro ⟨lq, sp, d, pd⟩ cfg t p hp he
  obtain rfl : pd = none := hp
  have hfire : fireSetFilters ⟨lq, sp, d, none⟩ cfg p = (⟨lq, sp, d, none⟩, []) :=
    fireSetFilters_skip _ cfg p he
  have hrun : runCalls cfg ⟨lq, sp, d, none⟩ [(t, p)] =
      (⟨lq, sp, d, none⟩, [(t + cfg.delay, [])]) := by
    simp only [runCalls, stepCall_none, flushPending_some, hfire, List.nil_append]
  rw [hrun]
  exact ⟨rfl, rfl, rfl⟩

/-- Witness for C7: submitting `{}` when the effective filter values are
`{}` commits nothing and leaves the state alone. -/
theorem setFilters_deep_equal_noop_witness :
    (runCalls sampleConfig initialState [(0, .obj .nil)]).1.locationQuery =
        initialState.locationQuery ∧
      (runCalls sampleConfig initialState [(0, .obj .nil)]).1.storedParams =
        initialState.storedParams ∧
      (runCalls sampleConfig initialState [(0, .obj .nil)]).2 = [(500, [])] :=
  setFilters_deep_equal_noop initialState sampleConfig 0 (.obj .nil) rfl (by decide)

/-- C8 as stated fails on a concrete run: three calls at times 0, 100, 200
whose last payload `{}` deeply equals the effective filter values produce
zero commits — the single firing at 700 emits no push and no dispatch,
where the claim demands exactly one commit. -/
theorem setFilters_debounce_no_commit :
    (runCalls sampleConfig initialState
        [(0, .obj (.cons "q" (.str "a") .nil)), (100, .obj (.cons "q" (.str "b") .nil)),
          (200, .obj .nil)]).2 = [(700, [])] := by decide

/-- C8 amended: for three `setFilters` calls within the debounce window
under an unchanged signature, at most one commit occurs; when the last
payload is not deeply equal to the effective filter values, exactly one
commit occurs, it carries the last payload with empty values stripped, and
it fires exactly `delay` after the last call (one push and one dispatch of
the same new params, whose filter is the stripped payload). When the last
payload is deeply equal, the firing commits nothing. -/
theorem setFilters_debounce_last_payload_wins :
    ∀ (st : HookState) (cfg : HookConfig) (t1 t2 t3 : Int) (pA pB pC : JSValue),
      st.pending = none →
      t2 < t1 + cfg.delay → t3 < t2 + cfg.delay →
      isEqual pC (filterValuesOf st cfg) = false →
      ∃ np : QueryObj,
        np = setFilterAction (mergedQuery st cfg) (removeEmpty pC) ∧
        np.filter = some (removeEmpty pC) ∧
        runCalls cfg st [(t1, pA), (t2, pB), (t3, pC)] =
          (⟨np, some np, st.displayedFilters, none⟩,
            [(t3 + cfg.delay, [.push np, .dispatch np])]) := by
  rintro ⟨lq, sp, d, pd⟩ cfg t1 t2 t3 pA pB pC hp h12 h23 hne
  obtain rfl : pd = none := hp
  refine ⟨setFilterAction (mergedQuery ⟨lq, sp, d, none⟩ cfg) (removeEmpty pC),
    rfl, rfl, ?_⟩
  have hfire : fireSetFilters ⟨lq, sp, d, none⟩ cfg pC =
      commitFilter ⟨lq, sp, d, none⟩ cfg (removeEmpty pC) :=
    fireSetFilters_commit _ cfg pC hne
  have e2 : stepCall cfg ⟨lq, sp, d, some (t1 + cfg.delay, pA)⟩ t2 pB =
      (⟨lq, sp, d, some (t2 + cfg.delay, pB)⟩, []) :=
    stepCall_later cfg lq sp d (t1 + cfg.delay) pA t2 pB (by omega)
  have e3 : stepCall cfg ⟨lq, sp, d, some (t2 + cfg.delay, pB)⟩ t3 pC =
      (⟨lq, sp, d, some (t3 + cfg.delay, pC)⟩, []) :=
    stepCall_later cfg lq sp d (t2 + cfg.delay) pB t3 pC (by omega)
  have e4 : flushPending cfg ⟨lq, sp, d, some (t3 + cfg.delay, pC)⟩ =
      (⟨setFilterAction (mergedQuery ⟨lq, sp, d, none⟩ cfg) (removeEmpty pC),
        some (setFilterAction (mergedQuery ⟨lq, sp, d, none⟩ cfg) (removeEmpty pC)),
        d, none⟩,
        [(t3 + cfg.delay,
          [.push (setFilterAction (mergedQuery ⟨lq, sp, d, none⟩ cfg) (removeEmpty pC)),
            .dispatch (setFilterAction (mergedQuery ⟨lq, sp, d, none⟩ cfg)
              (removeEmpty pC))])]) := by
    rw [flushPending_some, hfire]
    rfl
  simp only [runCalls, stepCall_none, e2, e3, e4, List.nil_append]

/-- Witness for C8 (amended): three calls at 0, 100, 200 with distinct
payloads commit once at 700 with the last payload, its empty string
entry stripped. -/
theorem setFilters_debounce_last_payload_wins_witness :
    ∃ np : QueryObj,
      np = setFilterAction (mergedQuery initialState sampleConfig)
        (removeEmpty (.obj (.cons "q" (.str "c") (.cons "e" (.str "") .nil)))) ∧
      np.filter =
        some (removeEmpty (.obj (.cons "q" (.str "c") (.cons "e" (.str "") .nil)))) ∧
      runCalls sampleConfig initialState
          [(0, .obj (.cons "q" (.str "a") .nil)), (100, .obj (.cons "q" (.str "b") .nil)),
            (200, .obj (.cons "q" (.str "c") (.cons "e" (.str "") .nil)))] =
        (⟨np, some np, initialState.displayedFilters, none⟩,
          [(200 + sampleConfig.delay, [.push np, .dispatch np])]) :=
  setFilters_debounce_last_payload_wins initialState sampleConfig 0 100 200
    (.obj (.cons "q" (.str "a") .nil)) (.obj (.cons "q" (.str "b") .nil))
    (.obj (.cons "q" (.str "c") (.cons "e" (.str "") .nil)))
    rfl (by decide) (by decide) (by decide)

/-- C9 as stated fails: `showFilter("status", null)` has a defined (not
undefined) default value, but `removeEmpty` strips the null entry before
the commit, so after the debounce fires the filter values do not include
`status` at all. -/
theorem showFilter_null_default_dropped :
    JSValue.null ≠ JSValue.undef ∧
    filterEntry (filterValuesOf
        (flushPending sampleConfig
          (showFilter initialState sampleConfig 0 "status" .null)).1
        sampleConfig) "status" = none :=
  ⟨by decide, by decide⟩

/-- C9 amended: `showFilter(name, dv)` with a defined and non-empty `dv`
submits the current filter values extended with `{name: dv}` through the
debounced `setFilters`; once the debounce fires (provided the submission is
not deeply equal to the current values — otherwise it is skipped), the
effective filter values bind `name` to `dv`; a subsequent `hideFilter(name)`
removes the binding after its own debounce fires. Empty defaults
(undefined, null, "", [], {}) are stripped by `removeEmpty` and never
appear. -/
theorem showFilter_then_hideFilter :
    ∀ (st : HookState) (cfg : HookConfig) (t1 t2 : Int) (name : String) (dv : JSValue),
      dv ≠ .undef → isEmptyVal dv = false →
      isEqual (objSet (filterValuesOf st cfg) name dv) (filterValuesOf st cfg) = false →
      filterEntry (filterValuesOf
          (flushPending cfg (showFilter st cfg t1 name dv)).1 cfg) name = some dv ∧
      filterEntry (filterValuesOf
          (flushPending cfg (hideFilter
            (flushPending cfg (showFilter st cfg t1 name dv)).1 cfg t2 name)).1 cfg)
          name = none := by
  rintro ⟨lq, sp, d, pd⟩ cfg t1 t2 name dv hdv hemp hne
  set fv := filterValuesOf ⟨lq, sp, d, pd⟩ cfg with hfv
  obtain ⟨fs0, hfs0⟩ := objSet_fields fv name dv
  set P := objSet fv name dv with hP
  set np1 := setFilterAction (mergedQuery ⟨lq, sp, d, pd⟩ cfg) (removeEmpty P) with hnp1
  have hshow : showFilter ⟨lq, sp, d, pd⟩ cfg t1 name dv =
      ⟨lq, sp, [(name, true)], some (t1 + cfg.delay, P)⟩ := by
    unfold showFilter
    rw [if_pos hdv]
    rfl
  have hne1 : isEqual P (filterValuesOf ⟨lq, sp, [(name, true)], none⟩ cfg) = false := hne
  have hflush1 : flushPending cfg (showFilter ⟨lq, sp, d, pd⟩ cfg t1 name dv) =
      (⟨np1, some np1, [(name, true)], none⟩,
        [(t1 + cfg.delay, [.push np1, .dispatch np1])]) := by
    rw [hshow, flushPending_some, fireSetFilters_commit _ _ _ hne1]
    rfl
  have hmerge1 : mergedQuery ⟨np1, some np1, [(name, true)], none⟩ cfg = np1 :=
    merge_committed cfg (selectQuery lq sp cfg.filterDefaultValues)
      (some (removeEmpty P)) (some np1)
  set fs1 := removeEmptyFields (insertField fs0 name dv) with hfs1
  have hfv1 : filterValuesOf ⟨np1, some np1, [(name, true)], none⟩ cfg = .obj fs1 := by
    unfold filterValuesOf
    rw [hmerge1]
    show filterOrEmpty (removeEmpty P) = JSValue.obj fs1
    rw [hfs0]
    rfl
  have hlook1 : fs1.lookup name = some dv :=
    removeEmptyFields_lookup _ name dv hemp (insertField_lookup fs0 name dv)
  constructor
  · rw [hflush1]
    show filterEntry (filterValuesOf ⟨np1, some np1, [(name, true)], none⟩ cfg) name =
      some dv
    rw [hfv1]
    exact hlook1
  · rw [hflush1]
    show filterEntry (filterValuesOf
        (flushPending cfg
          (hideFilter ⟨np1, some np1, [(name, true)], none⟩ cfg t2 name)).1 cfg)
        name = none
    have hfv1' : filterValuesOf ⟨np1, some np1, [(name, false)], none⟩ cfg = .obj fs1 :=
      hfv1
    have hhide : hideFilter ⟨np1, some np1, [(name, true)], none⟩ cfg t2 name =
        ⟨np1, some np1, [(name, false)],
          some (t2 + cfg.delay, .obj (removeKeyFields name fs1))⟩ := by
      show callSetFilters ⟨np1, some np1, [(name, false)], none⟩ t2 cfg.delay
          (removeKey (filterValuesOf ⟨np1, some np1, [(name, false)], none⟩ cfg) name) =
        ⟨np1, some np1, [(name, false)],
          some (t2 + cfg.delay, .obj (removeKeyFields name fs1))⟩
      rw [hfv1']
      rfl
    set np2 := setFilterAction (mergedQuery ⟨np1, some np1, [(name, false)], none⟩ cfg)
      (removeEmpty (.obj (removeKeyFields name fs1))) with hnp2
    have hne2 : isEqual (.obj (removeKeyFields name fs1))
        (filterValuesOf ⟨np1, some np1, [(name, false)], none⟩ cfg) = false := by
      rw [hfv1']
      exact isEqual_obj_of_length_ne _ _ (by
        have := removeKeyFields_length_lt fs1 name (hasKey_of_lookup fs1 name dv hlook1)
        omega)
    have hflush2 : flushPending cfg ⟨np1, some np1, [(name, false)],
        some (t2 + cfg.delay, .obj (removeKeyFields name fs1))⟩ =
        (⟨np2, some np2, [(name, false)], none⟩,
          [(t2 + cfg.delay, [.push np2, .dispatch np2])]) := by
      rw [flushPending_some, fireSetFilters_commit _ _ _ hne2]
      rfl
    have hmerge2 : mergedQuery ⟨np2, some np2, [(name, false)], none⟩ cfg = np2 :=
      merge_committed cfg (selectQuery np1 (some np1) cfg.filterDefaultValues)
        (some (removeEmpty (.obj (removeKeyFields name fs1)))) (some np2)
    have hfv2 : filterValuesOf ⟨np2, some np2, [(name, false)], none⟩ cfg =
        .obj (removeEmptyFields (removeKeyFields name fs1)) := by
      unfold filterValuesOf
      rw [hmerge2]
      rfl
    rw [hhide, hflush2]
    show filterEntry (filterValuesOf ⟨np2, some np2, [(name, false)], none⟩ cfg) name =
      none
    rw [hfv2]
    exact removeEmptyFields_lookup_none _ name (removeKeyFields_lookup_self fs1 name)

/-- Witness for C9 (amended): showing `status` with default `"open"` makes
the filter values bind it once the debounce fires; hiding it afterwards
removes it. -/
theorem showFilter_then_hideFilter_witness :
    filterEntry (filterValuesOf
        (flushPending sampleConfig
          (showFilter initialState sampleConfig 0 "status" (.str "open"))).1
        sampleConfig) "status" = some (.str "open") ∧
      filterEntry (filterValuesOf
          (flushPending sampleConfig (hideFilter
            (flushPending sampleConfig
              (showFilter initialState sampleConfig 0 "status" (.str "open"))).1
            sampleConfig 600 "status")).1 sampleConfig) "status" = none :=
  showFilter_then_hideFilter initialState sampleConfig 0 600 "status" (.str "open")
    (by decide) (by decide) (by decide)

/-- C10: every `hideFilter(name)` or `showFilter(name, defaultValue)` call
replaces the whole `displayedFilters` map with the single-entry object
`{name: false}` or `{name: true}` respectively, discarding the visibility
entries previously recorded for all other filters. -/
theorem displayedFilters_wholesale_replaced :
    ∀ (st : HookState) (cfg : HookConfig) (now : Int) (name : String) (dv : JSValue),
      (hideFilter st cfg now name).displayedFilters = [(name, false)] ∧
      (showFilter st cfg now name dv).displayedFilters = [(name, true)] := by
  intro st cfg now name dv
  refine ⟨rfl, ?_⟩
  unfold showFilter
  split <;> rfl

end ListParams
